import Mathlib

/-!
Verification of the LLMchat turn-taking / conversation-orchestration engine.

Shallow embedding of the two orchestration variants of the repository:
* `Client` embeds `src/script.js` (the browser-side loop: `getNextSpeaker`,
  `continueConversation`, `startConversation`, `togglePause`, `addCustomLlm`,
  `handleUserMessage`), with the JavaScript timer / promise machinery made
  explicit as a list of turn "cycles" each advancing through the phases
  armed → generating → pacing → done.
* `Server` embeds `src/server/index.js` (`ChatManager.handleUserMessage`,
  `ChatManager.updateChatStatus`, `LLMService.generateResponse`), with each
  invocation of `handleUserMessage` made explicit as a coroutine ("task")
  whose suspension points (the awaited provider call and the awaited
  database save) are separate small-step events, so that interleavings of
  concurrent handler invocations and status changes can be analysed.

Provider calls and database writes are external collaborators; their results
enter the model as parameters of the completion events (`GenOutcome` for the
provider, a success Boolean for the store), exactly at the await points of
the source.
-/

namespace LLMChat

/-- Outcome of one provider invocation, as observed at the await point:
either the provider returned `content`, or the call failed (HTTP error,
timeout, rejected promise) with `reason`. -/
inductive GenOutcome
  | ok (content : String)
  | err (reason : String)
deriving DecidableEq, Repr

namespace Client

/-- Entry of `state.conversationHistory` in `script.js`
(`{ sender, text }`). -/
structure CMessage where
  sender : String
  text : String
deriving DecidableEq, Repr

/-- Entry of `state.customLLMs` in `script.js` (`{ name, apiKey, endpoint }`). -/
structure CustomLLM where
  name : String
  apiKey : String
  endpoint : String
deriving DecidableEq, Repr

/-- Progress of one turn cycle started by `continueConversation`:
`armed` = the outer `setTimeout` is pending (cancellable via
`clearTimeout(state.responseTimeout)`); `generating` = the timeout callback
fired and `generateResponse` is awaiting the provider; `pacing` = the reply
was committed and the inner 1-second `setTimeout` is pending; `doneC` =
the cycle finished or its armed timer was cleared. -/
inductive CyclePhase
  | armed
  | generating
  | pacing
  | doneC
deriving DecidableEq, Repr

/-- One turn cycle created by `continueConversation`: the timer id stored
into `state.responseTimeout`, the speaker chosen by `getNextSpeaker`, and
the cycle's current phase. -/
structure Cycle where
  cid : Nat
  speaker : String
  phase : CyclePhase
deriving DecidableEq, Repr

/-- Observable UI effects of `addMessageToChat` (and the system join
notice), in emission order. `thinking` corresponds to the
`isThinking = true` rendering. -/
inductive UiEv
  | userMsg (sender text : String)
  | thinking (speaker : String)
  | commit (speaker text : String)
  | system (text : String)
deriving DecidableEq, Repr

/-- The `state` object of `script.js`, plus the module-level
`llmPersonalities` map (a JavaScript object, modelled as a partial map) and
the explicit timer/cycle bookkeeping. `uiEvents` records the DOM messages
appended by `addMessageToChat` in order. -/
structure ClientState where
  selectedLLMs : List String
  topic : String
  isPaused : Bool
  isOngoing : Bool
  conversationHistory : List CMessage
  customLLMs : List CustomLLM
  speakingOrder : List String
  currentSpeakerIndex : Nat
  responseTimeout : Option Nat
  username : String
  personalities : String → Option String
  cycles : List Cycle
  nextTimerId : Nat
  uiEvents : List UiEv

/-- Embedding of `getNextSpeaker` (`script.js` lines 99-105): returns null
on an empty order, otherwise reads `speakingOrder[currentSpeakerIndex]` and
advances the index modulo the length. The mutation of
`state.currentSpeakerIndex` is returned as the second component. -/
def getNextSpeaker (order : List String) (idx : Nat) : Option String × Nat :=
  if order.length = 0 then (none, idx)
  else (order[idx]?, (idx + 1) % order.length)

/-- First `n` results of repeatedly calling `getNextSpeaker`, threading the
cursor through, starting from cursor `idx`. -/
def speakerStream (order : List String) : Nat → Nat → List (Option String)
  | _, 0 => []
  | idx, n + 1 =>
    let r := getNextSpeaker order idx
    r.1 :: speakerStream order r.2 n

/-- One in-place swap `[a[i], a[j]] = [a[j], a[i]]` of the Fisher-Yates
loop body, functionally. Out-of-range indices never occur in the source
(`j = Math.floor(Math.random() * (i + 1))` lies in `[0, i]`); the fallback
branch keeps the function total. -/
def listSwap {α : Type} (l : List α) (i j : Nat) : List α :=
  match l[i]?, l[j]? with
  | some a, some b => (l.set i b).set j a
  | _, _ => l

/-- The Fisher-Yates loop of `startConversation` (`script.js` lines
241-245), running the swap for indices `i, i-1, ..., 1`. `rand i` models
`Math.floor(Math.random() * (i + 1))`, which always lies in `[0, i]`. -/
def fyAux {α : Type} (rand : Nat → Nat) : Nat → List α → List α
  | 0, l => l
  | i + 1, l => fyAux rand i (listSwap l (i + 1) (rand (i + 1)))

/-- Embedding of the shuffle in `startConversation`: copy of the selected
list, then the descending-index swap loop. -/
def fisherYates {α : Type} (rand : Nat → Nat) (l : List α) : List α :=
  fyAux rand (l.length - 1) l

/-- The synthesized reply of the client `generateResponse` catch branch
(`script.js` line 179). -/
def clientErrText (llm : String) : String :=
  "[" ++ llm ++ " couldn't generate a response due to a technical issue]"

/-- The persona string assigned by `addCustomLlm` (`script.js` line 353). -/
def genericPersona (name : String) : String :=
  "You are " ++ name ++
    ", a helpful and conversational AI assistant with your own unique style and perspective."

/-- Embedding of `continueConversation` (`script.js` lines 189-223) up to
its first suspension: checks pause/ongoing, consumes `getNextSpeaker`
(advancing the cursor even when the returned element is absent, as the
source mutates the index inside `getNextSpeaker`), renders the thinking
placeholder and arms the response timeout. The timeout firing, the provider
completion and the pacing timeout are separate events below. -/
def continueConversation (s : ClientState) : ClientState :=
  if s.isPaused ∨ ¬ s.isOngoing then s
  else
    let r := getNextSpeaker s.speakingOrder s.currentSpeakerIndex
    let s1 := { s with currentSpeakerIndex := r.2 }
    match r.1 with
    | none => s1
    | some sp =>
      { s1 with
        uiEvents := s1.uiEvents ++ [UiEv.thinking sp]
        cycles := s1.cycles ++ [Cycle.mk s1.nextTimerId sp CyclePhase.armed]
        responseTimeout := some s1.nextTimerId
        nextTimerId := s1.nextTimerId + 1 }

/-- Embedding of `togglePause` (`script.js` lines 273-291): flip the flag;
when pausing, `clearTimeout(state.responseTimeout)` cancels the armed outer
timer (an already-fired timer is unaffected); when unpausing, resume via
`continueConversation`. -/
def togglePause (s : ClientState) : ClientState :=
  let s1 := { s with isPaused := !s.isPaused }
  if s1.isPaused then
    match s1.responseTimeout with
    | some tid =>
      { s1 with
        cycles := s1.cycles.map fun c =>
          if c.cid = tid ∧ c.phase = CyclePhase.armed
          then { c with phase := CyclePhase.doneC } else c
        responseTimeout := none }
    | none => s1
  else continueConversation s1

/-- The outer `setTimeout` of `continueConversation` fires: the cycle's
callback starts running and `generateResponse` is now awaiting the
provider. -/
def timerFire (s : ClientState) (tid : Nat) : ClientState :=
  { s with
    cycles := s.cycles.map fun c =>
      if c.cid = tid ∧ c.phase = CyclePhase.armed
      then { c with phase := CyclePhase.generating } else c }

/-- The awaited `generateResponse` resolves (`script.js` lines 204-221):
the thinking placeholder is replaced by the reply (or by the catch branch's
error text on provider failure), the reply is pushed onto
`conversationHistory` unconditionally, and the 1-second pacing timeout is
started. Note the source performs no pause/stop re-check here. -/
def genDone (s : ClientState) (tid : Nat) (out : GenOutcome) : ClientState :=
  match s.cycles.find? (fun c => c.cid == tid) with
  | none => s
  | some c =>
    if c.phase = CyclePhase.generating then
      let resp := match out with
        | GenOutcome.ok txt => txt
        | GenOutcome.err _ => clientErrText c.speaker
      { s with
        conversationHistory := s.conversationHistory ++ [CMessage.mk c.speaker resp]
        uiEvents := s.uiEvents ++ [UiEv.commit c.speaker resp]
        cycles := s.cycles.map fun d =>
          if d.cid = c.cid then { d with phase := CyclePhase.pacing } else d }
    else s

/-- The inner 1-second `setTimeout` fires (`script.js` lines 217-221):
if still ongoing and not paused, the next turn is scheduled via
`continueConversation`; otherwise nothing happens. -/
def paceFire (s : ClientState) (tid : Nat) : ClientState :=
  match s.cycles.find? (fun c => c.cid == tid) with
  | none => s
  | some c =>
    if c.phase = CyclePhase.pacing then
      let s1 := { s with
        cycles := s.cycles.map fun d =>
          if d.cid = c.cid then { d with phase := CyclePhase.doneC } else d }
      if s1.isOngoing ∧ ¬ s1.isPaused then continueConversation s1 else s1
    else s

/-- Embedding of `handleUserMessage` (`script.js` lines 362-380): the
trimmed message text is rejected when empty, when not ongoing or when
paused; otherwise it is rendered and pushed onto the history directly (no
thinking phase and no provider call for it), then `continueConversation`
runs. -/
def handleUserMessage (s : ClientState) (text : String) : ClientState :=
  if text = "" ∨ ¬ s.isOngoing ∨ s.isPaused then s
  else
    continueConversation
      { s with
        uiEvents := s.uiEvents ++ [UiEv.userMsg s.username text]
        conversationHistory := s.conversationHistory ++ [CMessage.mk s.username text] }

/-- Embedding of `addCustomLlm` (`script.js` lines 326-360): missing name
or API key aborts; otherwise the entry is pushed onto `customLLMs`, and if
a conversation is ongoing the name is appended to `selectedLLMs` and
`speakingOrder` (with the system join notice); finally
`llmPersonalities[name]` is assigned the generic persona. The source
performs no duplicate-id check. -/
def addCustomLlm (s : ClientState) (name apiKey endpoint : String) : ClientState :=
  if name = "" ∨ apiKey = "" then s
  else
    let s1 := { s with customLLMs := s.customLLMs ++ [CustomLLM.mk name apiKey endpoint] }
    let s2 :=
      if s1.isOngoing then
        { s1 with
          selectedLLMs := s1.selectedLLMs ++ [name]
          speakingOrder := s1.speakingOrder ++ [name]
          uiEvents := s1.uiEvents ++ [UiEv.system (name ++ " has joined the conversation.")] }
      else s1
    { s2 with
      personalities := fun n =>
        if n = name then some (genericPersona name) else s2.personalities n }

/-- The synchronous part of `startConversation` (`script.js` lines
225-267) before the trailing `continueConversation()` call: gather the
selected LLM names plus the custom ones, reset flags and history, shuffle
the speaking order via Fisher-Yates, set the cursor to 0 and seed the
history with the topic message. -/
def startConversationSetup (s : ClientState) (checkboxSelected : List String)
    (topic : String) (rand : Nat → Nat) : ClientState :=
  let sel := checkboxSelected ++ s.customLLMs.map CustomLLM.name
  { s with
    selectedLLMs := sel
    topic := topic
    isOngoing := true
    isPaused := false
    conversationHistory := [CMessage.mk s.username ("Let's discuss this topic: " ++ topic)]
    speakingOrder := fisherYates rand sel
    currentSpeakerIndex := 0
    uiEvents := s.uiEvents ++ [UiEv.userMsg s.username ("Let's discuss this topic: " ++ topic)] }

/-- Embedding of `startConversation`: the setup above followed by the
initial `continueConversation()` call. -/
def startConversation (s : ClientState) (checkboxSelected : List String)
    (topic : String) (rand : Nat → Nat) : ClientState :=
  continueConversation (startConversationSetup s checkboxSelected topic rand)

/-- External triggers of the client loop: the user-facing handlers plus
the firing of the explicit timers and the resolution of the awaited
provider call. -/
inductive ClientAct
  | start (checkboxSelected : List String) (topic : String) (rand : Nat → Nat)
  | pauseToggle
  | userMsg (text : String)
  | timerFire (tid : Nat)
  | genDone (tid : Nat) (out : GenOutcome)
  | paceFire (tid : Nat)
  | addLlm (name apiKey endpoint : String)

/-- Dispatch one client trigger. -/
def stepC (s : ClientState) : ClientAct → ClientState
  | ClientAct.start sel topic rand => startConversation s sel topic rand
  | ClientAct.pauseToggle => togglePause s
  | ClientAct.userMsg text => handleUserMessage s text
  | ClientAct.timerFire tid => timerFire s tid
  | ClientAct.genDone tid out => genDone s tid out
  | ClientAct.paceFire tid => paceFire s tid
  | ClientAct.addLlm n k e => addCustomLlm s n k e

/-- Run a sequence of client triggers. -/
def runC (s : ClientState) (acts : List ClientAct) : ClientState :=
  acts.foldl stepC s

/-- Recogniser for the conversation-(re)start trigger. -/
def isStartAct : ClientAct → Bool
  | ClientAct.start _ _ _ => true
  | _ => false

theorem get_cons_set_perm {α : Type} (x : α) :
    ∀ (t : List α) (j : Nat) (hj : j < t.length),
      List.Perm (t.get ⟨j, hj⟩ :: t.set j x) (x :: t) := by
  intro t
  induction t with
  | nil => intro j hj; simp at hj
  | cons y s ih =>
    intro j hj
    cases j with
    | zero => exact List.Perm.swap x y s
    | succ j =>
      have hj' : j < s.length := by simpa using hj
      show List.Perm (s.get ⟨j, hj'⟩ :: y :: s.set j x) (x :: y :: s)
      exact ((List.Perm.swap y (s.get ⟨j, hj'⟩) (s.set j x)).trans
        ((ih j hj').cons y)).trans (List.Perm.swap x y s)

theorem set_set_swap_perm {α : Type} :
    ∀ (l : List α) (i j : Nat) (hi : i < l.length) (hj : j < l.length),
      List.Perm ((l.set i (l.get ⟨j, hj⟩)).set j (l.get ⟨i, hi⟩)) l := by
  intro l
  induction l with
  | nil => intro i j hi _; simp at hi
  | cons y t ih =>
    intro i j hi hj
    cases i with
    | zero =>
      cases j with
      | zero => exact List.Perm.refl _
      | succ j =>
        have hj' : j < t.length := by simpa using hj
        exact get_cons_set_perm y t j hj'
    | succ i =>
      have hi' : i < t.length := by simpa using hi
      cases j with
      | zero => exact get_cons_set_perm y t i hi'
      | succ j =>
        have hj' : j < t.length := by simpa using hj
        exact (ih i j hi' hj').cons y

theorem listSwap_perm {α : Type} (l : List α) (i j : Nat) :
    List.Perm (listSwap l i j) l := by
  unfold listSwap
  cases hi : l[i]? with
  | none => exact List.Perm.refl l
  | some a =>
    cases hj : l[j]? with
    | none => exact List.Perm.refl l
    | some b =>
      obtain ⟨hi', rfl⟩ := List.getElem?_eq_some_iff.mp hi
      obtain ⟨hj', rfl⟩ := List.getElem?_eq_some_iff.mp hj
      exact set_set_swap_perm l i j hi' hj'

theorem fyAux_perm {α : Type} (rand : Nat → Nat) :
    ∀ (n : Nat) (l : List α), List.Perm (fyAux rand n l) l := by
  intro n
  induction n with
  | zero => intro l; exact List.Perm.refl l
  | succ k ih =>
    intro l
    exact (ih _).trans (listSwap_perm l (k + 1) (rand (k + 1)))

theorem fisherYates_perm {α : Type} (rand : Nat → Nat) (l : List α) :
    List.Perm (fisherYates rand l) l :=
  fyAux_perm rand (l.length - 1) l

theorem continueConversation_order (s : ClientState) :
    (continueConversation s).speakingOrder = s.speakingOrder := by
  simp only [continueConversation]
  split
  · rfl
  · split <;> rfl

theorem togglePause_order (s : ClientState) :
    (togglePause s).speakingOrder = s.speakingOrder := by
  simp only [togglePause]
  split
  · split <;> rfl
  · exact continueConversation_order _

theorem genDone_order (s : ClientState) (tid : Nat) (out : GenOutcome) :
    (genDone s tid out).speakingOrder = s.speakingOrder := by
  simp only [genDone]
  split
  · rfl
  · split <;> rfl

theorem paceFire_order (s : ClientState) (tid : Nat) :
    (paceFire s tid).speakingOrder = s.speakingOrder := by
  simp only [paceFire]
  split
  · rfl
  · split
    · split
      · exact continueConversation_order _
      · rfl
    · rfl

theorem handleUserMessage_order (s : ClientState) (text : String) :
    (handleUserMessage s text).speakingOrder = s.speakingOrder := by
  simp only [handleUserMessage]
  split
  · rfl
  · exact continueConversation_order _

theorem paceFire_paused (s : ClientState) (tid : Nat) (hp : s.isPaused = true) :
    (paceFire s tid).uiEvents = s.uiEvents ∧
    (paceFire s tid).cycles.length = s.cycles.length ∧
    (paceFire s tid).conversationHistory = s.conversationHistory := by
  simp only [paceFire]
  split
  · exact ⟨rfl, rfl, rfl⟩
  · split
    · rw [if_neg (by simp [hp])]
      exact ⟨rfl, by simp, rfl⟩
    · exact ⟨rfl, rfl, rfl⟩

theorem genDone_commits (s : ClientState) (tid : Nat) (cyc : Cycle) (out : GenOutcome)
    (hfind : s.cycles.find? (fun c => c.cid == tid) = some cyc)
    (hph : cyc.phase = CyclePhase.generating) :
    (genDone s tid out).conversationHistory =
      s.conversationHistory ++
        [CMessage.mk cyc.speaker
          (match out with
           | GenOutcome.ok txt => txt
           | GenOutcome.err _ => clientErrText cyc.speaker)] ∧
    (genDone s tid out).cycles =
      s.cycles.map fun d =>
        if d.cid = cyc.cid then { d with phase := CyclePhase.pacing } else d := by
  simp only [genDone, hfind]
  rw [if_pos hph]
  exact ⟨rfl, rfl⟩

theorem stepC_speakingOrder_append_only (s : ClientState) (a : ClientAct)
    (h : isStartAct a = false) :
    (stepC s a).speakingOrder = s.speakingOrder ∨
    ∃ nm, (stepC s a).speakingOrder = s.speakingOrder ++ [nm] := by
  cases a with
  | start sel t r => simp [isStartAct] at h
  | pauseToggle => exact Or.inl (togglePause_order s)
  | userMsg text => exact Or.inl (handleUserMessage_order s text)
  | timerFire tid => exact Or.inl rfl
  | genDone tid out => exact Or.inl (genDone_order s tid out)
  | paceFire tid => exact Or.inl (paceFire_order s tid)
  | addLlm n k e =>
    show (addCustomLlm s n k e).speakingOrder = s.speakingOrder ∨
      ∃ nm, (addCustomLlm s n k e).speakingOrder = s.speakingOrder ++ [nm]
    simp only [addCustomLlm]
    split
    · exact Or.inl rfl
    · split
      · exact Or.inr ⟨n, rfl⟩
      · exact Or.inl rfl

theorem speakerStream_reaches_tail (x : String) :
    ∀ (d : Nat) (L : List String) (i : Nat), i ≤ L.length → L.length - i = d →
      speakerStream (L ++ [x]) i (d + 1) = (L.drop i).map some ++ [some x] := by
  intro d
  induction d with
  | zero =>
    intro L i hle hd
    have hi : i = L.length := by omega
    subst hi
    have hne : (L ++ [x]).length = 0 ↔ False := by simp
    simp [speakerStream, getNextSpeaker, hne, List.getElem?_concat_length]
  | succ k ih =>
    intro L i hle hd
    have hi : i < L.length := by omega
    have hget : (L ++ [x])[i]? = some (L.get ⟨i, hi⟩) := by
      rw [List.getElem?_append_left hi]
      simp [List.getElem?_eq_some_iff]
      exact hi
    have hmod : (i + 1) % (L ++ [x]).length = i + 1 := by
      have : (L ++ [x]).length = L.length + 1 := by simp
      rw [this]
      exact Nat.mod_eq_of_lt (by omega)
    have hdrop : L.drop i = L.get ⟨i, hi⟩ :: L.drop (i + 1) := by
      rw [← List.getElem_cons_drop L i hi]
      rfl
    have hne : ¬ ((L ++ [x]).length = 0) := by simp
    calc speakerStream (L ++ [x]) i (k + 1 + 1)
        = (L ++ [x])[i]? :: speakerStream (L ++ [x]) ((i + 1) % (L ++ [x]).length) (k + 1) := by
          simp [speakerStream, getNextSpeaker, hne]
      _ = some (L.get ⟨i, hi⟩) :: speakerStream (L ++ [x]) (i + 1) (k + 1) := by
          rw [hget, hmod]
      _ = some (L.get ⟨i, hi⟩) :: ((L.drop (i + 1)).map some ++ [some x]) := by
          rw [ih L (i + 1) (by omega) (by omega)]
      _ = (L.drop i).map some ++ [some x] := by
          rw [hdrop]
          rfl

/-- The page-load initial client state (`script.js` lines 37-49), with the
module-level `llmPersonalities` map restricted to absence (its concrete
seven entries are irrelevant to every claim and are overwritten per-name by
`addCustomLlm`). -/
def initClient : ClientState where
  selectedLLMs := []
  topic := ""
  isPaused := false
  isOngoing := false
  conversationHistory := []
  customLLMs := []
  speakingOrder := []
  currentSpeakerIndex := 0
  responseTimeout := none
  username := "User"
  personalities := fun _ => none
  cycles := []
  nextTimerId := 0
  uiEvents := []

end Client

namespace Server

/-- The chat status values of `server/index.js` (`active`, `paused`,
`stopped`). -/
inductive Status
  | active
  | paused
  | stopped
deriving DecidableEq, Repr

/-- Value of the `activeChats` map (`chatId -> { status, users, llms }`).
`users` is the set of joined user ids, kept for fidelity to the source
record. -/
structure ChatData where
  status : Status
  users : List String
  llms : List String
deriving DecidableEq, Repr

/-- A message record as stored in the `messages` table and as carried by
the socket `message` events (`{ chat_id, sender, content, is_user }`). -/
structure Message where
  chat_id : String
  sender : String
  content : String
  is_user : Bool
deriving DecidableEq, Repr

/-- Progress of one `ChatManager.handleUserMessage` invocation through its
LLM loop: `atLlm` = about to test the loop condition for index `idx`;
`generating` = `llmService.generateResponse` is awaiting the provider for
`llms[idx]`; `saving` = `supabaseService.saveMessage` is awaiting the
store; `done` = the handler returned. -/
inductive Phase
  | atLlm
  | generating
  | saving
  | done
deriving DecidableEq, Repr

/-- One live `handleUserMessage` invocation (a coroutine between awaits):
the chat id and user-message content it was called with, the `chatData.llms`
array it iterates, the loop index, the current phase, and the reply text
held between the provider completion and the store completion. -/
structure Task where
  chatId : String
  content : String
  llms : List String
  idx : Nat
  phase : Phase
  pendingContent : String
deriving DecidableEq, Repr

/-- Events emitted to the socket room, in emission order: `message`
broadcasts, `thinking` notifications, and the status-change broadcast of
`updateChatStatus` (the source emits the event name `resume` for `active`
and the status name otherwise; the payload is the status itself here). -/
inductive Ev
  | message (chatId sender content : String)
  | thinking (chatId llm : String)
  | statusEv (chatId : String) (s : Status)
deriving DecidableEq, Repr

/-- Global coordinator state: the in-memory `activeChats` map (as an
association list), the persisted `chats.status` column, the persisted
`messages` table in insertion order, the emitted socket events in order,
and the live `handleUserMessage` coroutines (identified by their list
index; finished tasks stay in place with phase `done`). -/
structure ServerState where
  activeChats : List (String × ChatData)
  dbChats : List (String × Status)
  saved : List Message
  events : List Ev
  tasks : List Task
deriving DecidableEq, Repr

/-- Lookup in the `activeChats` map (a `Map` in the source, so keys are
unique; the association list is searched front to back). -/
def lookupChat : List (String × ChatData) → String → Option ChatData
  | [], _ => none
  | p :: rest, c => if p.1 = c then some p.2 else lookupChat rest c

/-- In-place status assignment `activeChats.get(chatId).status = status`:
the entry with the given key is updated. -/
def setChatStatus : List (String × ChatData) → String → Status → List (String × ChatData)
  | [], _, _ => []
  | p :: rest, c, st =>
    if p.1 = c then (p.1, { p.2 with status := st }) :: rest
    else p :: setChatStatus rest c st

/-- The `chats` table update performed by
`SupabaseService.updateChatStatus` on success. -/
def setDbStatus : List (String × Status) → String → Status → List (String × Status)
  | [], _, _ => []
  | p :: rest, c, st =>
    if p.1 = c then (p.1, st) :: rest else p :: setDbStatus rest c st

/-- In-memory status of a chat, when it is tracked in `activeChats`. -/
def statusOf (s : ServerState) (c : String) : Option Status :=
  (lookupChat s.activeChats c).map ChatData.status

/-- The LLM names with an entry in `LLMService.models`
(`server/index.js` lines 202-227). -/
def knownModels : List String :=
  ["ChatGPT", "Claude", "Gemini", "Grok", "Mistral", "Llama"]

/-- Value returned by `LLMService.generateResponse` (`server/index.js`
lines 411-453) given the provider-call outcome: an unknown LLM yields the
"not available" apology without any provider call; a failed call (the
`result.error` branch and the catch branch produce the same shape) yields
the synthesized apology carrying the reason; a successful call yields its
content. -/
def genResult (llm : String) (out : GenOutcome) : String :=
  if knownModels.contains llm then
    match out with
    | GenOutcome.ok c => c
    | GenOutcome.err r => "I'm sorry, but " ++ llm ++ " encountered an error: " ++ r
  else "I'm sorry, but " ++ llm ++ " is not available at the moment."

/-- Embedding of `ChatManager.updateChatStatus` (`server/index.js` lines
593-618): a chat absent from `activeChats` returns false untouched;
otherwise the in-memory status is assigned first, then the database update
runs (its success is the `dbOk` parameter); on database failure the
function returns false without broadcasting; on success the status event is
broadcast and true returned. -/
def updateChatStatus (s : ServerState) (c : String) (st : Status) (dbOk : Bool) :
    ServerState × Bool :=
  match lookupChat s.activeChats c with
  | none => (s, false)
  | some _ =>
    let s1 := { s with activeChats := setChatStatus s.activeChats c st }
    if dbOk then
      ({ s1 with
          dbChats := setDbStatus s1.dbChats c st
          events := s1.events ++ [Ev.statusEv c st] }, true)
    else (s1, false)

/-- Scheduler-visible events driving the coordinator: arrival of a socket
`message` (running the synchronous prefix of `handleUserMessage`:
broadcast, activity check, spawn of the handler coroutine), resumption of a
handler at each of its await points (`taskRun` runs from the loop head to
the provider call, `genComplete` delivers the provider outcome,
`saveComplete` delivers the store outcome), and the `pause`/`resume`/`stop`
socket handlers (each carrying the success of the associated database
update). -/
inductive Act
  | userMessage (m : Message)
  | taskRun (tid : Nat)
  | genComplete (tid : Nat) (out : GenOutcome)
  | saveComplete (tid : Nat) (ok : Bool)
  | pauseReq (c : String) (dbOk : Bool)
  | resumeReq (c : String) (dbOk : Bool)
  | stopReq (c : String) (dbOk : Bool)
deriving Repr

/-- One small step of the coordinator. `userMessage`: the message is
broadcast unconditionally (`server/index.js` line 539); if it is a user
message and the chat is tracked and active, a handler coroutine is spawned
over `chatData.llms` (the profile lookup preceding the loop is collapsed
into the spawn). `taskRun` on `atLlm`: when the loop has items left it
emits the `thinking` event and enters the provider call, otherwise the
handler returns. `genComplete`: the reply text is computed by `genResult`;
the source then re-checks that the chat is still tracked and active
(lines 559-562) and returns, discarding the reply, when it is not;
otherwise the store save begins. `saveComplete`: on store error the
handler returns (line 572-575); on success the saved message is appended,
broadcast, and the loop advances. -/
def step (s : ServerState) : Act → ServerState
  | Act.userMessage m =>
    let s1 := { s with events := s.events ++ [Ev.message m.chat_id m.sender m.content] }
    if m.is_user then
      match lookupChat s.activeChats m.chat_id with
      | some cd =>
        if cd.status = Status.active then
          { s1 with tasks := s1.tasks ++ [Task.mk m.chat_id m.content cd.llms 0 Phase.atLlm ""] }
        else s1
      | none => s1
    else s1
  | Act.taskRun tid =>
    match s.tasks[tid]? with
    | none => s
    | some t =>
      match t.phase with
      | Phase.atLlm =>
        match t.llms[t.idx]? with
        | some llm =>
          { s with
            events := s.events ++ [Ev.thinking t.chatId llm]
            tasks := s.tasks.set tid { t with phase := Phase.generating } }
        | none => { s with tasks := s.tasks.set tid { t with phase := Phase.done } }
      | _ => s
  | Act.genComplete tid out =>
    match s.tasks[tid]? with
    | none => s
    | some t =>
      match t.phase with
      | Phase.generating =>
        match t.llms[t.idx]? with
        | some llm =>
          let response := genResult llm out
          match lookupChat s.activeChats t.chatId with
          | some cd =>
            if cd.status = Status.active then
              { s with
                tasks := s.tasks.set tid
                  { t with phase := Phase.saving, pendingContent := response } }
            else { s with tasks := s.tasks.set tid { t with phase := Phase.done } }
          | none => { s with tasks := s.tasks.set tid { t with phase := Phase.done } }
        | none => s
      | _ => s
  | Act.saveComplete tid ok =>
    match s.tasks[tid]? with
    | none => s
    | some t =>
      match t.phase with
      | Phase.saving =>
        match t.llms[t.idx]? with
        | some llm =>
          if ok then
            { s with
              saved := s.saved ++ [Message.mk t.chatId llm t.pendingContent false]
              events := s.events ++ [Ev.message t.chatId llm t.pendingContent]
              tasks := s.tasks.set tid
                { t with idx := t.idx + 1, phase := Phase.atLlm, pendingContent := "" } }
          else { s with tasks := s.tasks.set tid { t with phase := Phase.done } }
        | none => s
      | _ => s
  | Act.pauseReq c dbOk => (updateChatStatus s c Status.paused dbOk).1
  | Act.resumeReq c dbOk => (updateChatStatus s c Status.active dbOk).1
  | Act.stopReq c dbOk => (updateChatStatus s c Status.stopped dbOk).1

/-- Run a sequence of coordinator steps. -/
def run (s : ServerState) (acts : List Act) : ServerState :=
  acts.foldl step s

/-- Number of provider calls currently in flight for chat `c`: the handler
coroutines sitting at the provider await. -/
def inFlight (s : ServerState) (c : String) : Nat :=
  s.tasks.countP fun t => decide (t.chatId = c ∧ t.phase = Phase.generating)

/-- Recogniser for the handler-spawning trigger. -/
def isUserMessage : Act → Bool
  | Act.userMessage _ => true
  | _ => false

/-- Number of socket `message` arrivals in a trigger sequence. -/
def countUserMessages (acts : List Act) : Nat :=
  acts.countP isUserMessage

/-- Recogniser for `thinking` notifications. -/
def isThinking : Ev → Bool
  | Ev.thinking _ _ => true
  | _ => false

/-- The subsequence of `thinking` notifications of an event log. -/
def thinkingEvs (evs : List Ev) : List Ev :=
  evs.filter isThinking

/-- The trigger sequence that lets one handler coroutine run to
completion with every provider call succeeding and every store save
succeeding: for each remaining participant, resume the loop head, deliver
the provider result, deliver the store result; finally resume the loop
head once more so the handler observes the exhausted loop and returns. -/
def turnActs (tid : Nat) : List String → List Act
  | [] => [Act.taskRun tid]
  | _ :: rest =>
    Act.taskRun tid :: Act.genComplete tid (GenOutcome.ok "reply") ::
      Act.saveComplete tid true :: turnActs tid rest

theorem step_userMessage_spawn (s : ServerState) (m : Message) (cd : ChatData)
    (hc : lookupChat s.activeChats m.chat_id = some cd)
    (hcs : cd.status = Status.active) (hu : m.is_user = true) :
    step s (Act.userMessage m) =
      { s with
        events := s.events ++ [Ev.message m.chat_id m.sender m.content]
        tasks := s.tasks ++ [Task.mk m.chat_id m.content cd.llms 0 Phase.atLlm ""] } := by
  simp [step, hc, hcs, hu]

theorem step_userMessage_inactive (s : ServerState) (m : Message) (cd : ChatData)
    (hc : lookupChat s.activeChats m.chat_id = some cd)
    (hcs : cd.status ≠ Status.active) :
    step s (Act.userMessage m) =
      { s with events := s.events ++ [Ev.message m.chat_id m.sender m.content] } := by
  by_cases hu : m.is_user
  · simp [step, hc, hu, hcs]
  · simp [step, hc, hu]

theorem step_taskRun_atLlm (s : ServerState) (tid : Nat) (t : Task) (llm : String)
    (h : s.tasks[tid]? = some t) (hp : t.phase = Phase.atLlm)
    (hl : t.llms[t.idx]? = some llm) :
    step s (Act.taskRun tid) =
      { s with
        events := s.events ++ [Ev.thinking t.chatId llm]
        tasks := s.tasks.set tid { t with phase := Phase.generating } } := by
  simp [step, h, hp, hl]

theorem step_taskRun_ended (s : ServerState) (tid : Nat) (t : Task)
    (h : s.tasks[tid]? = some t) (hp : t.phase = Phase.atLlm)
    (hl : t.llms[t.idx]? = none) :
    step s (Act.taskRun tid) =
      { s with tasks := s.tasks.set tid { t with phase := Phase.done } } := by
  simp [step, h, hp, hl]

theorem step_genComplete_active (s : ServerState) (tid : Nat) (t : Task)
    (llm : String) (out : GenOutcome) (cd : ChatData)
    (h : s.tasks[tid]? = some t) (hp : t.phase = Phase.generating)
    (hl : t.llms[t.idx]? = some llm)
    (hc : lookupChat s.activeChats t.chatId = some cd)
    (hcs : cd.status = Status.active) :
    step s (Act.genComplete tid out) =
      { s with
        tasks := s.tasks.set tid
          { t with phase := Phase.saving, pendingContent := genResult llm out } } := by
  simp [step, h, hp, hl, hc, hcs]

theorem step_genComplete_discard (s : ServerState) (tid : Nat) (t : Task)
    (llm : String) (out : GenOutcome)
    (h : s.tasks[tid]? = some t) (hp : t.phase = Phase.generating)
    (hl : t.llms[t.idx]? = some llm)
    (hs : statusOf s t.chatId ≠ some Status.active) :
    step s (Act.genComplete tid out) =
      { s with tasks := s.tasks.set tid { t with phase := Phase.done } } := by
  cases hc : lookupChat s.activeChats t.chatId with
  | none => simp [step, h, hp, hl, hc]
  | some cd =>
    have hcs : cd.status ≠ Status.active := by
      intro hh
      exact hs (by simp [statusOf, hc, hh])
    simp [step, h, hp, hl, hc, hcs]

theorem step_saveComplete_ok (s : ServerState) (tid : Nat) (t : Task) (llm : String)
    (h : s.tasks[tid]? = some t) (hp : t.phase = Phase.saving)
    (hl : t.llms[t.idx]? = some llm) :
    step s (Act.saveComplete tid true) =
      { s with
        saved := s.saved ++ [Message.mk t.chatId llm t.pendingContent false]
        events := s.events ++ [Ev.message t.chatId llm t.pendingContent]
        tasks := s.tasks.set tid
          { t with idx := t.idx + 1, phase := Phase.atLlm, pendingContent := "" } } := by
  simp [step, h, hp, hl]

theorem step_saveComplete_fail (s : ServerState) (tid : Nat) (t : Task) (llm : String)
    (h : s.tasks[tid]? = some t) (hp : t.phase = Phase.saving)
    (hl : t.llms[t.idx]? = some llm) :
    step s (Act.saveComplete tid false) =
      { s with tasks := s.tasks.set tid { t with phase := Phase.done } } := by
  simp [step, h, hp, hl]

theorem step_done_inert (s : ServerState) (tid : Nat) (t : Task)
    (h : s.tasks[tid]? = some t) (hp : t.phase = Phase.done) :
    (∀ out ok,
      step s (Act.taskRun tid) = s ∧
      step s (Act.genComplete tid out) = s ∧
      step s (Act.saveComplete tid ok) = s) := by
  intro out ok
  refine ⟨?_, ?_, ?_⟩ <;> simp [step, h, hp]

theorem updateChatStatus_tasks (s : ServerState) (c : String) (st : Status)
    (dbOk : Bool) : (updateChatStatus s c st dbOk).1.tasks = s.tasks := by
  simp only [updateChatStatus]
  split
  · rfl
  · split <;> rfl

theorem tasks_length_taskRun (s : ServerState) (tid : Nat) :
    (step s (Act.taskRun tid)).tasks.length = s.tasks.length := by
  simp only [step]
  split
  · rfl
  · split
    · split <;> simp
    · rfl

theorem tasks_length_genComplete (s : ServerState) (tid : Nat) (out : GenOutcome) :
    (step s (Act.genComplete tid out)).tasks.length = s.tasks.length := by
  simp only [step]
  split
  · rfl
  · split
    · split
      · split
        · split <;> simp
        · simp
      · rfl
    · rfl

theorem tasks_length_saveComplete (s : ServerState) (tid : Nat) (ok : Bool) :
    (step s (Act.saveComplete tid ok)).tasks.length = s.tasks.length := by
  simp only [step]
  split
  · rfl
  · split
    · split
      · split <;> simp
      · rfl
    · rfl

theorem tasks_length_step (s : ServerState) (a : Act) :
    (step s a).tasks.length ≤ s.tasks.length + (if isUserMessage a then 1 else 0) := by
  cases a with
  | userMessage m =>
    show (step s (Act.userMessage m)).tasks.length ≤ s.tasks.length + 1
    simp only [step]
    split
    · split
      · split <;> simp
      · simp
    · simp
  | taskRun tid => simp [tasks_length_taskRun s tid, isUserMessage]
  | genComplete tid out => simp [tasks_length_genComplete s tid out, isUserMessage]
  | saveComplete tid ok => simp [tasks_length_saveComplete s tid ok, isUserMessage]
  | pauseReq c dbOk =>
    have h : (updateChatStatus s c Status.paused dbOk).1.tasks = s.tasks :=
      updateChatStatus_tasks s c Status.paused dbOk
    simp [isUserMessage, step, h]
  | resumeReq c dbOk =>
    have h : (updateChatStatus s c Status.active dbOk).1.tasks = s.tasks :=
      updateChatStatus_tasks s c Status.active dbOk
    simp [isUserMessage, step, h]
  | stopReq c dbOk =>
    have h : (updateChatStatus s c Status.stopped dbOk).1.tasks = s.tasks :=
      updateChatStatus_tasks s c Status.stopped dbOk
    simp [isUserMessage, step, h]

theorem tasks_length_run : ∀ (acts : List Act) (s : ServerState),
    (run s acts).tasks.length ≤ s.tasks.length + countUserMessages acts := by
  intro acts
  induction acts with
  | nil =>
    intro s
    simp [run, countUserMessages]
  | cons a rest ih =>
    intro s
    have h1 := tasks_length_step s a
    have h2 := ih (step s a)
    have hr : run s (a :: rest) = run (step s a) rest := rfl
    have hc : countUserMessages (a :: rest) =
        countUserMessages rest + (if isUserMessage a then 1 else 0) := by
      simp [countUserMessages, List.countP_cons]
    rw [hr, hc]
    omega

theorem inFlight_le_tasks (s : ServerState) (c : String) :
    inFlight s c ≤ s.tasks.length :=
  List.countP_le_length _

theorem lookupChat_setChatStatus_self (m : List (String × ChatData)) (c : String)
    (st : Status) (cd : ChatData) (h : lookupChat m c = some cd) :
    lookupChat (setChatStatus m c st) c = some { cd with status := st } := by
  induction m with
  | nil => simp [lookupChat] at h
  | cons p rest ih =>
    by_cases hc : p.1 = c
    · simp [lookupChat, hc] at h
      simp [lookupChat, setChatStatus, hc, h]
    · simp [lookupChat, hc] at h
      simp [lookupChat, setChatStatus, hc, ih h]

theorem updateChatStatus_missing (s : ServerState) (c : String) (st : Status)
    (dbOk : Bool) (h : lookupChat s.activeChats c = none) :
    updateChatStatus s c st dbOk = (s, false) := by
  simp [updateChatStatus, h]

theorem updateChatStatus_dbFail (s : ServerState) (c : String) (st : Status)
    (cd : ChatData) (h : lookupChat s.activeChats c = some cd) :
    updateChatStatus s c st false =
      ({ s with activeChats := setChatStatus s.activeChats c st }, false) := by
  simp [updateChatStatus, h]

theorem updateChatStatus_dbOk (s : ServerState) (c : String) (st : Status)
    (cd : ChatData) (h : lookupChat s.activeChats c = some cd) :
    updateChatStatus s c st true =
      ({ s with
          activeChats := setChatStatus s.activeChats c st
          dbChats := setDbStatus s.dbChats c st
          events := s.events ++ [Ev.statusEv c st] }, true) := by
  simp [updateChatStatus, h]

theorem run_turnActs_thinking (tid : Nat) (c content : String) :
    ∀ (rem pre : List String) (s : ServerState) (cd : ChatData) (pend : String),
      s.tasks[tid]? = some (Task.mk c content (pre ++ rem) pre.length Phase.atLlm pend) →
      lookupChat s.activeChats c = some cd →
      cd.status = Status.active →
      thinkingEvs (run s (turnActs tid rem)).events =
        thinkingEvs s.events ++ rem.map (Ev.thinking c) := by
  intro rem
  induction rem with
  | nil =>
    intro pre s cd pend h hc hcs
    have hl : (Task.mk c content (pre ++ ([] : List String)) pre.length
        Phase.atLlm pend).llms[(Task.mk c content (pre ++ ([] : List String))
          pre.length Phase.atLlm pend).idx]? = none := by
      simp
    show thinkingEvs (step s (Act.taskRun tid)).events = _
    rw [step_taskRun_ended s tid _ h rfl hl]
    simp
  | cons r rest ih =>
    intro pre s cd pend h hc hcs
    obtain ⟨hlt, -⟩ := List.getElem?_eq_some_iff.mp h
    have hl : (pre ++ r :: rest)[pre.length]? = some r := by
      rw [List.getElem?_append_right (Nat.le_refl pre.length)]
      simp
    have e1 : step s (Act.taskRun tid) =
        { s with
          events := s.events ++ [Ev.thinking c r]
          tasks := s.tasks.set tid
            (Task.mk c content (pre ++ r :: rest) pre.length Phase.generating pend) } := by
      rw [step_taskRun_atLlm s tid
        (Task.mk c content (pre ++ r :: rest) pre.length Phase.atLlm pend) r h rfl hl]
    have h2 : (s.tasks.set tid
        (Task.mk c content (pre ++ r :: rest) pre.length Phase.generating pend))[tid]? =
        some (Task.mk c content (pre ++ r :: rest) pre.length Phase.generating pend) :=
      List.getElem?_set_self hlt
    have e2 : step
        { s with
          events := s.events ++ [Ev.thinking c r]
          tasks := s.tasks.set tid
            (Task.mk c content (pre ++ r :: rest) pre.length Phase.generating pend) }
        (Act.genComplete tid (GenOutcome.ok "reply")) =
        { s with
          events := s.events ++ [Ev.thinking c r]
          tasks := s.tasks.set tid
            (Task.mk c content (pre ++ r :: rest) pre.length Phase.saving
              (genResult r (GenOutcome.ok "reply"))) } := by
      rw [step_genComplete_active
        { s with
          events := s.events ++ [Ev.thinking c r]
          tasks := s.tasks.set tid
            (Task.mk c content (pre ++ r :: rest) pre.length Phase.generating pend) }
        tid (Task.mk c content (pre ++ r :: rest) pre.length Phase.generating pend) r
        (GenOutcome.ok "reply") cd h2 rfl hl hc hcs]
      rw [List.set_set]
    have h3 : (s.tasks.set tid
        (Task.mk c content (pre ++ r :: rest) pre.length Phase.saving
          (genResult r (GenOutcome.ok "reply"))))[tid]? =
        some (Task.mk c content (pre ++ r :: rest) pre.length Phase.saving
          (genResult r (GenOutcome.ok "reply"))) :=
      List.getElem?_set_self hlt
    have e3 : step
        { s with
          events := s.events ++ [Ev.thinking c r]
          tasks := s.tasks.set tid
            (Task.mk c content (pre ++ r :: rest) pre.length Phase.saving
              (genResult r (GenOutcome.ok "reply"))) }
        (Act.saveComplete tid true) =
        { s with
          saved := s.saved ++
            [Message.mk c r (genResult r (GenOutcome.ok "reply")) false]
          events := (s.events ++ [Ev.thinking c r]) ++
            [Ev.message c r (genResult r (GenOutcome.ok "reply"))]
          tasks := s.tasks.set tid
            (Task.mk c content (pre ++ r :: rest) (pre.length + 1) Phase.atLlm "") } := by
      rw [step_saveComplete_ok
        { s with
          events := s.events ++ [Ev.thinking c r]
          tasks := s.tasks.set tid
            (Task.mk c content (pre ++ r :: rest) pre.length Phase.saving
              (genResult r (GenOutcome.ok "reply"))) }
        tid
        (Task.mk c content (pre ++ r :: rest) pre.length Phase.saving
          (genResult r (GenOutcome.ok "reply"))) r h3 rfl hl]
      rw [List.set_set]
    have hrun : run s (turnActs tid (r :: rest)) =
        run { s with
          saved := s.saved ++
            [Message.mk c r (genResult r (GenOutcome.ok "reply")) false]
          events := (s.events ++ [Ev.thinking c r]) ++
            [Ev.message c r (genResult r (GenOutcome.ok "reply"))]
          tasks := s.tasks.set tid
            (Task.mk c content (pre ++ r :: rest) (pre.length + 1) Phase.atLlm "") }
          (turnActs tid rest) := by
      show run (step (step (step s (Act.taskRun tid))
        (Act.genComplete tid (GenOutcome.ok "reply"))) (Act.saveComplete tid true))
        (turnActs tid rest) = _
      rw [e1, e2, e3]
    have hTeq : Task.mk c content ((pre ++ [r]) ++ rest) (pre ++ [r]).length
        Phase.atLlm "" =
        Task.mk c content (pre ++ r :: rest) (pre.length + 1) Phase.atLlm "" := by
      simp
    have h4 : ({ s with
        saved := s.saved ++
          [Message.mk c r (genResult r (GenOutcome.ok "reply")) false]
        events := (s.events ++ [Ev.thinking c r]) ++
          [Ev.message c r (genResult r (GenOutcome.ok "reply"))]
        tasks := s.tasks.set tid
          (Task.mk c content (pre ++ r :: rest) (pre.length + 1) Phase.atLlm "") } :
        ServerState).tasks[tid]? =
        some (Task.mk c content ((pre ++ [r]) ++ rest) (pre ++ [r]).length
          Phase.atLlm "") := by
      rw [hTeq]
      exact List.getElem?_set_self hlt
    have hih := ih (pre ++ [r])
      { s with
        saved := s.saved ++
          [Message.mk c r (genResult r (GenOutcome.ok "reply")) false]
        events := (s.events ++ [Ev.thinking c r]) ++
          [Ev.message c r (genResult r (GenOutcome.ok "reply"))]
        tasks := s.tasks.set tid
          (Task.mk c content (pre ++ r :: rest) (pre.length + 1) Phase.atLlm "") }
      cd "" h4 hc hcs
    rw [hrun, hih]
    simp [thinkingEvs, isThinking, List.filter_append]

end Server

/-- A coordinator state with one tracked active chat `room` (one joined
user, participants ChatGPT and Claude), an empty message log and no live
handler, as produced by a successful `joinChat` on a fresh active chat. -/
def s0 : Server.ServerState where
  activeChats := [("room", Server.ChatData.mk Server.Status.active ["u1"] ["ChatGPT", "Claude"])]
  dbChats := [("room", Server.Status.active)]
  saved := []
  events := []
  tasks := []

/-- A user message in chat `room`. -/
def goMsg : Server.Message := Server.Message.mk "room" "u1" "go" true

/-- C3 sanity example retained as a proof-free computation check. -/
example :
    Client.speakerStream ["A", "B", "C"] 0 6 =
      [some "A", some "B", some "C", some "A", some "B", some "C"] := by decide

/-- C3: `getNextSpeaker` is a pure round-robin step: with a non-empty
`speakingOrder` and an in-range cursor `i` it returns `speakingOrder[i]`
and the cursor `(i + 1) % length`; on an empty order it returns none and
leaves the cursor unchanged; consequently from order `[A, B, C]` and
cursor 0 six successive calls yield `A, B, C, A, B, C`. -/
theorem c3_getNextSpeaker_round_robin (order : List String) (i : Nat)
    (h : i < order.length) :
    Client.getNextSpeaker order i = (some (order.get ⟨i, h⟩), (i + 1) % order.length) ∧
    (∀ j : Nat, Client.getNextSpeaker [] j = (none, j)) ∧
    Client.speakerStream ["A", "B", "C"] 0 6 =
      [some "A", some "B", some "C", some "A", some "B", some "C"] := by
  refine ⟨?_, ?_, by decide⟩
  · have hne : order.length ≠ 0 := by omega
    simp [Client.getNextSpeaker, hne, List.getElem?_eq_some_iff]
    exact h
  · intro j
    simp [Client.getNextSpeaker]

/-- Witness for C3 at the concrete order `["A", "B"]`, cursor 1. -/
theorem c3_getNextSpeaker_round_robin_witness :
    Client.getNextSpeaker ["A", "B"] 1 = (some "B", 0) := by
  have h := c3_getNextSpeaker_round_robin ["A", "B"] 1 (by decide)
  simpa using h.1

/-- Counterexample to C1 as stated: from a task-free state with the active
chat `room`, a second user message arriving while the first handler is
awaiting its provider call puts a second provider call in flight for the
same conversation, so two generation cycles overlap. -/
theorem c1_overlapping_generations_counterexample :
    Server.inFlight
      (Server.run s0
        [Server.Act.userMessage goMsg, Server.Act.taskRun 0,
         Server.Act.userMessage (Server.Message.mk "room" "u1" "again" true),
         Server.Act.taskRun 1])
      "room" = 2 := by decide

/-- Counterexample to C2 as stated: in the client loop, a pause issued
while the provider call is already in flight (outer timer fired) does not
discard the completing reply; the reply is still appended to the
transcript even though the conversation is paused at completion time. -/
theorem c2_pause_inflight_commit_counterexample :
    (Client.runC Client.initClient
        [Client.ClientAct.start ["A", "B"] "t" (fun i => i),
         Client.ClientAct.timerFire 0,
         Client.ClientAct.pauseToggle,
         Client.ClientAct.genDone 0 (GenOutcome.ok "hello")]).isPaused = true ∧
    (Client.runC Client.initClient
        [Client.ClientAct.start ["A", "B"] "t" (fun i => i),
         Client.ClientAct.timerFire 0,
         Client.ClientAct.pauseToggle,
         Client.ClientAct.genDone 0 (GenOutcome.ok "hello")]).conversationHistory =
      [Client.CMessage.mk "User" "Let's discuss this topic: t",
       Client.CMessage.mk "A" "hello"] := by
  exact ⟨rfl, by decide⟩

/-- Counterexample to C4 as stated: stopping chat `room` sets its status
to stopped, yet a subsequent resume request sets it back to active —
the stopped status is not terminal and the resume is not a no-op. -/
theorem c4_resume_after_stop_counterexample :
    Server.statusOf (Server.run s0 [Server.Act.stopReq "room" true]) "room" =
      some Server.Status.stopped ∧
    Server.statusOf
        (Server.run s0 [Server.Act.stopReq "room" true, Server.Act.resumeReq "room" true])
        "room" = some Server.Status.active := by decide

/-- Counterexample to C6 as stated: on the server a single user message in
the active two-participant chat `room` produces one thinking event per
participant (two in total, in `llms` order), not exactly one. -/
theorem c6_thinking_per_participant_counterexample :
    Server.thinkingEvs
      (Server.run s0
        [Server.Act.userMessage goMsg, Server.Act.taskRun 0,
         Server.Act.genComplete 0 (GenOutcome.ok "r1"),
         Server.Act.saveComplete 0 true, Server.Act.taskRun 0]).events =
      [Server.Ev.thinking "room" "ChatGPT", Server.Ev.thinking "room" "Claude"] := by decide

/-- Counterexample to C8 as stated: registering the id `A`, which is
already a participant of the ongoing conversation, appends it to
`speakingOrder` again, creating a duplicate turn slot. -/
theorem c8_duplicate_slot_counterexample :
    (Client.runC Client.initClient
        [Client.ClientAct.start ["A", "B"] "t" (fun i => i),
         Client.ClientAct.addLlm "A" "k" "e"]).speakingOrder = ["A", "B", "A"] := by decide

/-- C7: at conversation start the speaking order is the Fisher-Yates
shuffle of the selected participants, hence a permutation of them, with
the cursor initialised to 0; every trigger other than a restart either
leaves `speakingOrder` unchanged or appends a single newly joined name at
the end; and from cursor `i` on a prior order `L`, a participant `x`
appended at the tail is returned by the round-robin after the
`L.length - i` remaining members of the prior order, i.e. within one full
cycle of the prior order. -/
theorem c7_speaking_order_lifecycle (s : Client.ClientState) (sel : List String)
    (topic : String) (rand : Nat → Nat) (L : List String) (x : String) (i : Nat)
    (hle : i ≤ L.length) :
    List.Perm (Client.startConversationSetup s sel topic rand).speakingOrder
      (sel ++ s.customLLMs.map Client.CustomLLM.name) ∧
    (Client.startConversationSetup s sel topic rand).currentSpeakerIndex = 0 ∧
    (∀ (cs : Client.ClientState) (a : Client.ClientAct), Client.isStartAct a = false →
      (Client.stepC cs a).speakingOrder = cs.speakingOrder ∨
      ∃ nm, (Client.stepC cs a).speakingOrder = cs.speakingOrder ++ [nm]) ∧
    Client.speakerStream (L ++ [x]) i (L.length - i + 1) =
      (L.drop i).map some ++ [some x] := by
  refine ⟨?_, rfl, fun cs a h => Client.stepC_speakingOrder_append_only cs a h,
    Client.speakerStream_reaches_tail x (L.length - i) L i hle rfl⟩
  show List.Perm (Client.fisherYates rand (sel ++ s.customLLMs.map Client.CustomLLM.name)) _
  exact Client.fisherYates_perm rand _

/-- Witness for C7: with prior order `["A", "B"]`, cursor 1 and the new
participant `C` appended at the tail, the next two round-robin results are
`B` then `C`. -/
theorem c7_speaking_order_lifecycle_witness :
    Client.speakerStream (["A", "B"] ++ ["C"]) 1 2 = [some "B", some "C"] := by
  have h := c7_speaking_order_lifecycle Client.initClient ["A", "B"] "t"
    (fun i => i) ["A", "B"] "C" 1 (by decide)
  simpa using h.2.2.2

/-- C8 (amended): registering an id that is already a participant of an
ongoing conversation does update its persona (the personality map entry is
overwritten with the generic persona), but it is not idempotent on the
participant lists: the id is appended to `selectedLLMs`, `customLLMs` and
`speakingOrder` unconditionally, so an id that was already speaking gains
a second turn slot (its count in `speakingOrder` reaches at least 2). -/
theorem c8_add_existing_id_duplicates_slot (s : Client.ClientState)
    (name key ep : String)
    (hn : ¬ (name = "")) (hk : ¬ (key = "")) (ho : s.isOngoing = true) :
    (Client.addCustomLlm s name key ep).speakingOrder = s.speakingOrder ++ [name] ∧
    (Client.addCustomLlm s name key ep).selectedLLMs = s.selectedLLMs ++ [name] ∧
    (Client.addCustomLlm s name key ep).customLLMs =
      s.customLLMs ++ [Client.CustomLLM.mk name key ep] ∧
    (Client.addCustomLlm s name key ep).personalities name =
      some (Client.genericPersona name) ∧
    (name ∈ s.speakingOrder →
      2 ≤ (Client.addCustomLlm s name key ep).speakingOrder.count name) := by
  have hcond : ¬ (name = "" ∨ key = "") := by simp [hn, hk]
  have horder : (Client.addCustomLlm s name key ep).speakingOrder =
      s.speakingOrder ++ [name] := by
    simp [Client.addCustomLlm, hcond, ho]
  refine ⟨horder, ?_, ?_, ?_, ?_⟩
  · simp [Client.addCustomLlm, hcond, ho]
  · simp [Client.addCustomLlm, hcond, ho]
  · simp [Client.addCustomLlm, hcond, ho]
  · intro hmem
    rw [horder]
    have h1 : 0 < s.speakingOrder.count name := List.count_pos_iff.mpr hmem
    have h2 : (s.speakingOrder ++ [name]).count name =
        s.speakingOrder.count name + [name].count name :=
      List.count_append name s.speakingOrder [name]
    have h3 : [name].count name = 1 := List.count_singleton_self name
    omega

/-- Witness for C8 (amended): re-registering `A`, already in the order
`["A", "B"]` of an ongoing conversation, yields the order
`["A", "B", "A"]`. -/
theorem c8_add_existing_id_duplicates_slot_witness :
    (Client.addCustomLlm
        { Client.initClient with isOngoing := true, speakingOrder := ["A", "B"] }
        "A" "k" "e").speakingOrder = ["A", "B"] ++ ["A"] :=
  (c8_add_existing_id_duplicates_slot
    { Client.initClient with isOngoing := true, speakingOrder := ["A", "B"] }
    "A" "k" "e" (by decide) (by decide) rfl).1

/-- Counterexample to C9 as stated: with participants ChatGPT and Claude, a
store failure while saving ChatGPT's reply makes the handler return:
Claude's turn is never generated (only one thinking event ever fires, the
message log stays empty, and the handler coroutine is finished so the
remaining trigger deliveries are no-ops). -/
theorem c9_save_error_aborts_counterexample :
    Server.thinkingEvs
        (Server.run s0
          [Server.Act.userMessage goMsg, Server.Act.taskRun 0,
           Server.Act.genComplete 0 (GenOutcome.ok "r1"),
           Server.Act.saveComplete 0 false, Server.Act.taskRun 0,
           Server.Act.genComplete 0 (GenOutcome.ok "r2"),
           Server.Act.saveComplete 0 true]).events =
      [Server.Ev.thinking "room" "ChatGPT"] ∧
    (Server.run s0
        [Server.Act.userMessage goMsg, Server.Act.taskRun 0,
         Server.Act.genComplete 0 (GenOutcome.ok "r1"),
         Server.Act.saveComplete 0 false, Server.Act.taskRun 0,
         Server.Act.genComplete 0 (GenOutcome.ok "r2"),
         Server.Act.saveComplete 0 true]).saved = [] := by decide

/-- A coordinator state whose single handler coroutine for chat `room` is
awaiting the store save of ChatGPT's reply, used by witnesses. -/
def sSaving : Server.ServerState :=
  { s0 with tasks :=
      [Server.Task.mk "room" "go" ["ChatGPT", "Claude"] 0 Server.Phase.saving "r"] }

/-- A coordinator state whose single handler coroutine for chat `room` is
awaiting the provider for ChatGPT while the chat is paused, used by
witnesses. -/
def sPausedGen : Server.ServerState :=
  { s0 with
    activeChats :=
      [("room", Server.ChatData.mk Server.Status.paused ["u1"] ["ChatGPT", "Claude"])]
    tasks :=
      [Server.Task.mk "room" "go" ["ChatGPT", "Claude"] 0 Server.Phase.generating ""] }

/-- A coordinator state whose single handler coroutine for chat `room` is
awaiting the provider for ChatGPT with the chat active, used by
witnesses. -/
def sActiveGen : Server.ServerState :=
  { s0 with tasks :=
      [Server.Task.mk "room" "go" ["ChatGPT", "Claude"] 0 Server.Phase.generating ""] }

/-- C1 (amended): provider calls are strictly sequential within the
handling of a single trigger — starting from a state with no live handler,
any trigger sequence containing at most one user-message arrival never has
more than one provider call in flight for any conversation (the server
awaits each generation before starting the next of the same handler).
The code does not, however, serialize across triggers: each user message
spawns an independent handler, and overlapping handlers put overlapping
provider calls in flight for the same conversation. -/
theorem c1_generations_serial_within_one_trigger (s : Server.ServerState)
    (acts : List Server.Act) (c : String)
    (h0 : s.tasks = []) (h1 : Server.countUserMessages acts ≤ 1) :
    Server.inFlight (Server.run s acts) c ≤ 1 := by
  have ha := Server.tasks_length_run acts s
  have hb := Server.inFlight_le_tasks (Server.run s acts) c
  rw [h0] at ha
  simp only [List.length_nil, Nat.zero_add] at ha
  omega

/-- Witness for C1 (amended): a trace with a single user message in chat
`room` keeps at most one provider call in flight. -/
theorem c1_generations_serial_within_one_trigger_witness :
    Server.inFlight
      (Server.run s0 [Server.Act.userMessage goMsg, Server.Act.taskRun 0]) "room" ≤ 1 :=
  c1_generations_serial_within_one_trigger s0
    [Server.Act.userMessage goMsg, Server.Act.taskRun 0] "room" rfl (by decide)

/-- C2 (amended): on the server, a reply completing while the chat is
missing from `activeChats` or has a non-active status is discarded: the
message log and event log are unchanged and the handler coroutine ends, so
no further turn comes from it. On the client, a pacing timer firing while
paused schedules nothing, but a reply whose provider call was already in
flight when the pause happened is still appended to the transcript on
completion. -/
theorem c2_completion_after_pause_or_stop (s : Server.ServerState) (tid : Nat)
    (t : Server.Task) (llm : String) (out : GenOutcome)
    (h : s.tasks[tid]? = some t) (hp : t.phase = Server.Phase.generating)
    (hl : t.llms[t.idx]? = some llm)
    (hs : Server.statusOf s t.chatId ≠ some Server.Status.active) :
    (Server.step s (Server.Act.genComplete tid out)).saved = s.saved ∧
    (Server.step s (Server.Act.genComplete tid out)).events = s.events ∧
    (Server.step s (Server.Act.genComplete tid out)).tasks[tid]? =
      some { t with phase := Server.Phase.done } ∧
    (∀ (cs : Client.ClientState) (k : Nat), cs.isPaused = true →
      (Client.paceFire cs k).uiEvents = cs.uiEvents ∧
      (Client.paceFire cs k).cycles.length = cs.cycles.length ∧
      (Client.paceFire cs k).conversationHistory = cs.conversationHistory) ∧
    (∀ (cs : Client.ClientState) (k : Nat) (cyc : Client.Cycle) (txt : String),
      cs.cycles.find? (fun c => c.cid == k) = some cyc →
      cyc.phase = Client.CyclePhase.generating →
      (Client.genDone cs k (GenOutcome.ok txt)).conversationHistory =
        cs.conversationHistory ++ [Client.CMessage.mk cyc.speaker txt]) := by
  obtain ⟨hlt, -⟩ := List.getElem?_eq_some_iff.mp h
  rw [Server.step_genComplete_discard s tid t llm out h hp hl hs]
  refine ⟨rfl, rfl, List.getElem?_set_self hlt, ?_, ?_⟩
  · intro cs k hpp
    exact Client.paceFire_paused cs k hpp
  · intro cs k cyc txt hfind hph
    exact (Client.genDone_commits cs k cyc (GenOutcome.ok txt) hfind hph).1

/-- Witness for C2 (amended) at the paused chat `room` with ChatGPT's
provider call in flight: the completing reply saves nothing. -/
theorem c2_completion_after_pause_or_stop_witness :
    (Server.step sPausedGen (Server.Act.genComplete 0 (GenOutcome.ok "late"))).saved =
      sPausedGen.saved :=
  (c2_completion_after_pause_or_stop sPausedGen 0
    (Server.Task.mk "room" "go" ["ChatGPT", "Claude"] 0 Server.Phase.generating "")
    "ChatGPT" (GenOutcome.ok "late") (by decide) rfl (by decide) (by decide)).1

/-- C4 (amended): `updateChatStatus` checks only membership in
`activeChats`, never the current status, so stopped is not terminal: a
resume request on a conversation still tracked in `activeChats` whose
status is stopped sets the in-memory status back to active (whether or not
the database update succeeds); the request itself spawns no handler. Only
a chat absent from `activeChats` is left unchanged (with result false). -/
theorem c4_resume_reactivates_stopped (s : Server.ServerState) (c : String)
    (cd : Server.ChatData) (dbOk : Bool)
    (hc : Server.lookupChat s.activeChats c = some cd)
    (hcs : cd.status = Server.Status.stopped) :
    Server.statusOf (Server.step s (Server.Act.resumeReq c dbOk)) c =
      some Server.Status.active ∧
    (Server.step s (Server.Act.resumeReq c dbOk)).tasks = s.tasks ∧
    (∀ (s' : Server.ServerState) (c' : String) (dbOk' : Bool),
      Server.lookupChat s'.activeChats c' = none →
      Server.step s' (Server.Act.resumeReq c' dbOk') = s') := by
  refine ⟨?_, ?_, ?_⟩
  · show Server.statusOf (Server.updateChatStatus s c Server.Status.active dbOk).1 c = _
    cases dbOk with
    | false =>
      rw [Server.updateChatStatus_dbFail s c _ cd hc]
      simp [Server.statusOf,
        Server.lookupChat_setChatStatus_self s.activeChats c _ cd hc]
    | true =>
      rw [Server.updateChatStatus_dbOk s c _ cd hc]
      simp [Server.statusOf,
        Server.lookupChat_setChatStatus_self s.activeChats c _ cd hc]
  · show (Server.updateChatStatus s c Server.Status.active dbOk).1.tasks = s.tasks
    cases dbOk with
    | false => rw [Server.updateChatStatus_dbFail s c _ cd hc]
    | true => rw [Server.updateChatStatus_dbOk s c _ cd hc]
  · intro s' c' dbOk' hn
    show (Server.updateChatStatus s' c' Server.Status.active dbOk').1 = s'
    rw [Server.updateChatStatus_missing s' c' _ dbOk' hn]

/-- Witness for C4 (amended): resuming the stopped chat `room` makes it
active again. -/
theorem c4_resume_reactivates_stopped_witness :
    Server.statusOf
      (Server.step (Server.run s0 [Server.Act.stopReq "room" true])
        (Server.Act.resumeReq "room" true)) "room" = some Server.Status.active :=
  (c4_resume_reactivates_stopped (Server.run s0 [Server.Act.stopReq "room" true])
    "room" (Server.ChatData.mk Server.Status.stopped ["u1"] ["ChatGPT", "Claude"])
    true (by decide) rfl).1

/-- C5: when the provider call of a turn fails, `generateResponse` returns
the synthesized apology carrying the speaker's name and the reason; while
the chat is active and the store save succeeds, exactly that message,
attributed to the speaker, is appended to the message log and broadcast,
and the handler advances to the next participant exactly as on success
(identical continuation state for any successful content). The client
behaves alike: a failed call commits the bracketed error text for the
speaker and the cycle proceeds to pacing exactly as on success. -/
theorem c5_provider_failure_visible_and_continues (s : Server.ServerState)
    (tid : Nat) (t : Server.Task) (llm reason : String) (cd : Server.ChatData)
    (h : s.tasks[tid]? = some t) (hp : t.phase = Server.Phase.generating)
    (hl : t.llms[t.idx]? = some llm)
    (hk : Server.knownModels.contains llm = true)
    (hc : Server.lookupChat s.activeChats t.chatId = some cd)
    (hcs : cd.status = Server.Status.active) :
    Server.genResult llm (GenOutcome.err reason) =
      "I'm sorry, but " ++ llm ++ " encountered an error: " ++ reason ∧
    (Server.run s [Server.Act.genComplete tid (GenOutcome.err reason),
        Server.Act.saveComplete tid true]).saved =
      s.saved ++ [Server.Message.mk t.chatId llm
        (Server.genResult llm (GenOutcome.err reason)) false] ∧
    (Server.run s [Server.Act.genComplete tid (GenOutcome.err reason),
        Server.Act.saveComplete tid true]).events =
      s.events ++ [Server.Ev.message t.chatId llm
        (Server.genResult llm (GenOutcome.err reason))] ∧
    (Server.run s [Server.Act.genComplete tid (GenOutcome.err reason),
        Server.Act.saveComplete tid true]).tasks =
      s.tasks.set tid
        { t with idx := t.idx + 1, phase := Server.Phase.atLlm, pendingContent := "" } ∧
    (∀ content, (Server.run s [Server.Act.genComplete tid (GenOutcome.ok content),
        Server.Act.saveComplete tid true]).tasks =
      s.tasks.set tid
        { t with idx := t.idx + 1, phase := Server.Phase.atLlm, pendingContent := "" }) ∧
    (∀ (cs : Client.ClientState) (k : Nat) (cyc : Client.Cycle) (r : String),
      cs.cycles.find? (fun c => c.cid == k) = some cyc →
      cyc.phase = Client.CyclePhase.generating →
      (Client.genDone cs k (GenOutcome.err r)).conversationHistory =
        cs.conversationHistory ++
          [Client.CMessage.mk cyc.speaker (Client.clientErrText cyc.speaker)] ∧
      (Client.genDone cs k (GenOutcome.err r)).cycles =
        cs.cycles.map fun d =>
          if d.cid = cyc.cid then { d with phase := Client.CyclePhase.pacing } else d) := by
  obtain ⟨hlt, -⟩ := List.getElem?_eq_some_iff.mp h
  have hturn : ∀ out : GenOutcome,
      Server.run s [Server.Act.genComplete tid out, Server.Act.saveComplete tid true] =
        { s with
          saved := s.saved ++
            [Server.Message.mk t.chatId llm (Server.genResult llm out) false]
          events := s.events ++
            [Server.Ev.message t.chatId llm (Server.genResult llm out)]
          tasks := s.tasks.set tid
            { t with idx := t.idx + 1, phase := Server.Phase.atLlm,
                     pendingContent := "" } } := by
    intro out
    show Server.step (Server.step s (Server.Act.genComplete tid out))
      (Server.Act.saveComplete tid true) = _
    rw [Server.step_genComplete_active s tid t llm out cd h hp hl hc hcs]
    rw [Server.step_saveComplete_ok _ tid
      { t with phase := Server.Phase.saving,
               pendingContent := Server.genResult llm out } llm
      (List.getElem?_set_self hlt) rfl hl]
    simp [List.set_set]
  have hgen : Server.genResult llm (GenOutcome.err reason) =
      "I'm sorry, but " ++ llm ++ " encountered an error: " ++ reason := by
    unfold Server.genResult
    rw [if_pos hk]
  refine ⟨hgen, ?_, ?_, ?_, ?_, ?_⟩
  · rw [hturn (GenOutcome.err reason)]
  · rw [hturn (GenOutcome.err reason)]
  · rw [hturn (GenOutcome.err reason)]
  · intro content
    rw [hturn (GenOutcome.ok content)]
  · intro cs k cyc r hfind hph
    exact Client.genDone_commits cs k cyc (GenOutcome.err r) hfind hph

/-- Witness for C5 at the active chat `room` with ChatGPT's provider call
failing with reason `timeout`: the apology is saved attributed to
ChatGPT. -/
theorem c5_provider_failure_visible_and_continues_witness :
    (Server.run sActiveGen [Server.Act.genComplete 0 (GenOutcome.err "timeout"),
        Server.Act.saveComplete 0 true]).saved =
      sActiveGen.saved ++ [Server.Message.mk "room" "ChatGPT"
        (Server.genResult "ChatGPT" (GenOutcome.err "timeout")) false] :=
  (c5_provider_failure_visible_and_continues sActiveGen 0
    (Server.Task.mk "room" "go" ["ChatGPT", "Claude"] 0 Server.Phase.generating "")
    "ChatGPT" "timeout"
    (Server.ChatData.mk Server.Status.active ["u1"] ["ChatGPT", "Claude"])
    (by decide) rfl (by decide) (by decide) (by decide) rfl).2.1

/-- C6 (amended): on the client, a user message sent while the
conversation is ongoing and not paused is appended directly to the
transcript (no thinking phase and no provider call for the message
itself), and exactly one new thinking event fires, for the single
participant `speakingOrder[cursor]` given by the scheduler. On the server,
the user message is likewise broadcast directly without a thinking phase
or provider call of its own, but there is no cursor-based scheduler: the
handler it spawns runs one turn per participant of `chatData.llms` in list
order, emitting one thinking event per participant over its run — not
exactly one. -/
theorem c6_user_message_turn_trigger (cs : Client.ClientState) (text sp : String)
    (ht : ¬ (text = "")) (ho : cs.isOngoing = true) (hp : cs.isPaused = false)
    (hsp : cs.speakingOrder[cs.currentSpeakerIndex]? = some sp)
    (s : Server.ServerState) (m : Server.Message) (cd : Server.ChatData)
    (hc : Server.lookupChat s.activeChats m.chat_id = some cd)
    (hcs : cd.status = Server.Status.active) (hu : m.is_user = true) :
    (Client.handleUserMessage cs text).conversationHistory =
      cs.conversationHistory ++ [Client.CMessage.mk cs.username text] ∧
    (Client.handleUserMessage cs text).uiEvents =
      cs.uiEvents ++ [Client.UiEv.userMsg cs.username text, Client.UiEv.thinking sp] ∧
    (Client.handleUserMessage cs text).cycles =
      cs.cycles ++ [Client.Cycle.mk cs.nextTimerId sp Client.CyclePhase.armed] ∧
    (Server.step s (Server.Act.userMessage m)).events =
      s.events ++ [Server.Ev.message m.chat_id m.sender m.content] ∧
    (Server.step s (Server.Act.userMessage m)).saved = s.saved ∧
    Server.thinkingEvs
      (Server.run (Server.step s (Server.Act.userMessage m))
        (Server.turnActs s.tasks.length cd.llms)).events =
      Server.thinkingEvs s.events ++ cd.llms.map (Server.Ev.thinking m.chat_id) := by
  obtain ⟨hidx, -⟩ := List.getElem?_eq_some_iff.mp hsp
  have hne : ¬ (cs.speakingOrder.length = 0) := by omega
  have espawn := Server.step_userMessage_spawn s m cd hc hcs hu
  refine ⟨?_, ?_, ?_, by rw [espawn], by rw [espawn], ?_⟩
  · simp [Client.handleUserMessage, ht, ho, hp, Client.continueConversation,
      Client.getNextSpeaker, hne, hsp]
  · simp [Client.handleUserMessage, ht, ho, hp, Client.continueConversation,
      Client.getNextSpeaker, hne, hsp]
  · simp [Client.handleUserMessage, ht, ho, hp, Client.continueConversation,
      Client.getNextSpeaker, hne, hsp]
  · rw [espawn]
    have h4 : ((s.tasks ++
        [Server.Task.mk m.chat_id m.content cd.llms 0 Server.Phase.atLlm ""]) :
        List Server.Task)[s.tasks.length]? =
        some (Server.Task.mk m.chat_id m.content
          (([] : List String) ++ cd.llms) (List.length ([] : List String))
          Server.Phase.atLlm "") := by
      simpa using List.getElem?_concat_length s.tasks
        (Server.Task.mk m.chat_id m.content cd.llms 0 Server.Phase.atLlm "")
    have hih := Server.run_turnActs_thinking s.tasks.length m.chat_id m.content
      cd.llms []
      { s with
        events := s.events ++ [Server.Ev.message m.chat_id m.sender m.content]
        tasks := s.tasks ++
          [Server.Task.mk m.chat_id m.content cd.llms 0 Server.Phase.atLlm ""] }
      cd "" h4 hc hcs
    rw [hih]
    simp [Server.thinkingEvs, Server.isThinking, List.filter_append]

/-- Witness for C6 (amended) with the client order `["A", "B"]` at cursor
0 and the server chat `room` with participants ChatGPT and Claude. -/
theorem c6_user_message_turn_trigger_witness :
    (Client.handleUserMessage
        { Client.initClient with isOngoing := true, speakingOrder := ["A", "B"] }
        "hi").uiEvents =
      [Client.UiEv.userMsg "User" "hi", Client.UiEv.thinking "A"] ∧
    Server.thinkingEvs
      (Server.run (Server.step s0 (Server.Act.userMessage goMsg))
        (Server.turnActs 0 ["ChatGPT", "Claude"])).events =
      [Server.Ev.thinking "room" "ChatGPT", Server.Ev.thinking "room" "Claude"] := by
  have h := c6_user_message_turn_trigger
    { Client.initClient with isOngoing := true, speakingOrder := ["A", "B"] }
    "hi" "A" (by decide) rfl rfl (by decide) s0 goMsg
    (Server.ChatData.mk Server.Status.active ["u1"] ["ChatGPT", "Claude"])
    (by decide) rfl rfl
  exact ⟨h.2.1, by simpa using h.2.2.2.2.2⟩

/-- C9 (amended): a persistence failure while saving a committed AI reply
is a soft error for the process (no state beyond the handler changes, no
event is emitted), but it aborts the handler's turn sequence: the handler
coroutine returns, and a finished handler is inert, so the remaining
participants of that trigger are never generated or delivered. -/
theorem c9_save_error_logged_but_aborts_sequence (s : Server.ServerState)
    (tid : Nat) (t : Server.Task) (llm : String)
    (h : s.tasks[tid]? = some t) (hp : t.phase = Server.Phase.saving)
    (hl : t.llms[t.idx]? = some llm) :
    (Server.step s (Server.Act.saveComplete tid false)).saved = s.saved ∧
    (Server.step s (Server.Act.saveComplete tid false)).events = s.events ∧
    (Server.step s (Server.Act.saveComplete tid false)).tasks[tid]? =
      some { t with phase := Server.Phase.done } ∧
    (∀ (s' : Server.ServerState) (tid' : Nat) (t' : Server.Task)
        (out : GenOutcome) (ok : Bool),
      s'.tasks[tid']? = some t' → t'.phase = Server.Phase.done →
      Server.step s' (Server.Act.taskRun tid') = s' ∧
      Server.step s' (Server.Act.genComplete tid' out) = s' ∧
      Server.step s' (Server.Act.saveComplete tid' ok) = s') := by
  obtain ⟨hlt, -⟩ := List.getElem?_eq_some_iff.mp h
  rw [Server.step_saveComplete_fail s tid t llm h hp hl]
  refine ⟨rfl, rfl, List.getElem?_set_self hlt, ?_⟩
  intro s' tid' t' out ok h' hp'
  exact Server.step_done_inert s' tid' t' h' hp' out ok

/-- Witness for C9 (amended): the store failure for ChatGPT's reply in
chat `room` leaves the message log unchanged. -/
theorem c9_save_error_logged_but_aborts_sequence_witness :
    (Server.step sSaving (Server.Act.saveComplete 0 false)).saved = sSaving.saved :=
  (c9_save_error_logged_but_aborts_sequence sSaving 0
    (Server.Task.mk "room" "go" ["ChatGPT", "Claude"] 0 Server.Phase.saving "r")
    "ChatGPT" (by decide) rfl (by decide)).1

/-- C10: `updateChatStatus` is not atomic with respect to persistence
failure: for a chat tracked in `activeChats`, the in-memory status is
assigned before the database update is attempted, so when the database
update fails the call returns false while the in-memory status already
holds the requested value, the persisted status table is untouched (the
two now diverge for any actual change) and no status-change event is
broadcast. -/
theorem c10_updateChatStatus_not_atomic (s : Server.ServerState) (c : String)
    (st : Server.Status) (cd : Server.ChatData)
    (hc : Server.lookupChat s.activeChats c = some cd) :
    (Server.updateChatStatus s c st false).2 = false ∧
    Server.statusOf (Server.updateChatStatus s c st false).1 c = some st ∧
    (Server.updateChatStatus s c st false).1.dbChats = s.dbChats ∧
    (Server.updateChatStatus s c st false).1.events = s.events ∧
    (Server.updateChatStatus s c st false).1.saved = s.saved := by
  rw [Server.updateChatStatus_dbFail s c st cd hc]
  refine ⟨rfl, ?_, rfl, rfl, rfl⟩
  simp [Server.statusOf, Server.lookupChat_setChatStatus_self s.activeChats c st cd hc]

/-- Witness for C10: pausing chat `room` with a failing database update
returns false yet leaves the in-memory status paused. -/
theorem c10_updateChatStatus_not_atomic_witness :
    (Server.updateChatStatus s0 "room" Server.Status.paused false).2 = false ∧
    Server.statusOf (Server.updateChatStatus s0 "room" Server.Status.paused false).1
      "room" = some Server.Status.paused := by
  have h := c10_updateChatStatus_not_atomic s0 "room" Server.Status.paused
    (Server.ChatData.mk Server.Status.active ["u1"] ["ChatGPT", "Claude"]) (by decide)
  exact ⟨h.1, h.2.1⟩

end LLMChat
